import Mathlib

/-!
# Verification of the Aegistrate command dispatch & moderation core

Shallow embedding of the decision logic of the Aegistrate bot:
the plugin registry (`src/bot/core/plugin.rs`, `src/bot/data/plugin.rs`,
`src/core/plugin.rs`), the cooldown tracker (`src/core/cooldown.rs`),
option validation (`src/bot/core/command/validate.rs`), command-name
resolution (`src/core/command.rs`), and the moderation eligibility and
action pipeline (`src/bot/core/moderation/mod.rs`,
`src/bot/core/moderation/moderate.rs`).

External collaborators (the Discord gateway, the Mongo store, the system
clock) are modelled as explicit inputs; panics of the Rust code are
modelled as `Option.none`; `anyhow` errors as `Except String`.
-/

namespace Aegistrate

/-! ## Plugin registry (bot tree: `src/bot/core/plugin.rs`) -/

/-- The `Plugin` enum of `src/bot/core/plugin.rs` (variants in declaration
order, as iterated by `enum_iterator::all`). -/
inductive Plugin
  | Moderation
  | Information
  | Plugins
deriving DecidableEq

/-- `Plugin::to_name` of `src/bot/core/plugin.rs`. -/
def Plugin.to_name : Plugin → String
  | .Moderation => "Moderation"
  | .Information => "Information"
  | .Plugins => "Plugins"

/-- `Plugin::from_name` of `src/bot/core/plugin.rs` (exact-case match). -/
def Plugin.from_name (name : String) : Option Plugin :=
  match name with
  | "Moderation" => some .Moderation
  | "Information" => some .Information
  | "Plugins" => some .Plugins
  | _ => none

/-- `enum_iterator::all::<Plugin>()`: every variant, in declaration order. -/
def Plugin.all_variants : List Plugin := [.Moderation, .Information, .Plugins]

/-- `Plugin::default_plugins` of `src/bot/core/plugin.rs`. -/
def Plugin.default_plugins : List Plugin := [.Information, .Moderation, .Plugins]

/-- `Plugin::non_default_plugins` of `src/bot/core/plugin.rs`: all variants
not contained in the default list. -/
def Plugin.non_default_plugins : List Plugin :=
  Plugin.all_variants.filter (fun p => ¬ Plugin.default_plugins.contains p)

/-- `Plugin::is_default` of `src/bot/core/plugin.rs`. -/
def Plugin.is_default (p : Plugin) : Bool := Plugin.default_plugins.contains p

/-! ### Plugin persistence (`src/bot/data/plugin.rs`)

The Mongo collection `enabled-plugins` is modelled as the list of the
stored documents' `name` fields.  `HashSet` collection in the source is
modelled as a plain list: the code only ever queries membership. -/

/-- `PluginData::get_enabled_plugins` of `src/bot/data/plugin.rs`: maps every
stored name through `Plugin::from_name(...).unwrap()` (the `unwrap` panic on
an unrecognised name is modelled as `none`), then chains the default
plugins. -/
def PluginData.get_enabled_plugins (stored : List String) : Option (List Plugin) :=
  (stored.mapM Plugin.from_name).map (fun ps => ps ++ Plugin.default_plugins)

/-- `PluginData::enable_plugin` of `src/bot/data/plugin.rs`: inserts a
document holding the plugin's name. -/
def PluginData.enable_plugin (stored : List String) (p : Plugin) : List String :=
  stored ++ [p.to_name]

/-- `PluginData::disable_plugin` of `src/bot/data/plugin.rs`: `delete_one`
with an equality filter on the plugin's name removes the first matching
document. -/
def PluginData.disable_plugin (stored : List String) (p : Plugin) : List String :=
  stored.erase p.to_name

/-- `enable_plugin` of `src/bot/core/plugin.rs`: bails when the plugin is in
`PluginData::get_enabled_plugins`, otherwise registers the plugin's
commands with Discord (an external call whose outcome is the input `reg`;
a registration failure propagates through `?`) and then persists the
plugin.  The outer `Option` models the `unwrap` panic inside
`get_enabled_plugins`; the `Except` carries the `anyhow` error. -/
def enable_plugin (stored : List String) (p : Plugin) (reg : Except String Unit) :
    Option (Except String (List String)) :=
  (PluginData.get_enabled_plugins stored).map (fun enabled =>
    if enabled.contains p then
      .error ("Plugin " ++ p.to_name ++ " is already enabled for the current guild!")
    else
      match reg with
      | .error e => .error e
      | .ok _ => .ok (PluginData.enable_plugin stored p))

/-- `disable_plugin` of `src/bot/core/plugin.rs`: bails when the plugin is
not in `PluginData::get_enabled_plugins`, otherwise removes the stored
entry (and then resynchronises the guild's registered commands, an
external call with no effect on the stored set).  There is no check of
`Plugin::is_default` anywhere in this function. -/
def disable_plugin (stored : List String) (p : Plugin) :
    Option (Except String (List String)) :=
  (PluginData.get_enabled_plugins stored).map (fun enabled =>
    if ¬ enabled.contains p then
      .error ("Plugin " ++ p.to_name ++ " is already disabled for the current guild!")
    else
      .ok (PluginData.disable_plugin stored p))

/-! ### Plugin registry (core tree: `src/core/plugin.rs`) -/

/-- The `Plugin` enum of `src/core/plugin.rs` (the older, two-variant copy
in the `core` tree). -/
inductive CorePlugin
  | Moderation
  | Information
deriving DecidableEq

/-- `Plugin::default_plugins` of `src/core/plugin.rs`. -/
def CorePlugin.default_plugins : List CorePlugin := [.Information, .Moderation]

/-! ## Cooldown tracker (`src/core/cooldown.rs`) -/

/-- Rust `u64` subtraction `a - b`: panics (here `none`) when it would
underflow.  Used by `get_remaining_cooldown`, which subtracts with no
guard. -/
def checked_sub (a b : Nat) : Option Nat :=
  if b ≤ a then some (a - b) else none

/-- `get_remaining_cooldown` of `src/core/cooldown.rs`, as a function of the
wall clock `now`, the stored last-use timestamp (the store lookup result)
and the command's `cooldown_secs`.  The `now - last_use` subtraction is the
unguarded `u64` subtraction of the source. -/
def get_remaining_cooldown (now : Nat) (last_use : Option Nat) (cooldown : Nat) :
    Option Nat :=
  match last_use with
  | some lu =>
      (checked_sub now lu).map (fun between_period =>
        if between_period ≥ cooldown then 0 else cooldown - between_period)
  | none => some 0

/-- `cooled_down` of `src/core/cooldown.rs`: maps `get_remaining_cooldown`
through `(== 0)`. -/
def cooled_down (now : Nat) (last_use : Option Nat) (cooldown : Nat) :
    Option Bool :=
  (get_remaining_cooldown now last_use cooldown).map (fun c => c == 0)

/-! ## Option validation (`src/bot/core/command/validate.rs`) -/

/-- The serenity `CommandDataOptionValue`, restricted to what the validator
inspects: strings, user references (the second component is the optional
partial-member payload, present exactly when the user is a member of the
guild), and a catch-all for the remaining scalar variants, all of which the
validator treats alike (they are not strings and not user references). -/
inductive CommandDataOptionValue
  | str (s : String)
  | user (id : Nat) (member : Option Unit)
  | other
deriving DecidableEq

/-- The serenity `CommandDataOption` (the fields the validator reads). -/
structure CommandDataOption where
  name : String
  resolved : Option CommandDataOptionValue
deriving DecidableEq

/-- `InvalidOptionError` of `src/bot/core/command/validate.rs`. -/
inductive InvalidOptionError
  | NotDate (raw : String)
  | NotDuration (raw : String)
  | DurationTooLong (raw : String)
  | NotGuildMember (userId : Nat)
deriving DecidableEq

/-- `ValidatedOptions` of `src/bot/core/command/validate.rs`. -/
structure ValidatedOptions where
  dates : List String
  durations : List String
  guild_members : List String

/-- Models the external `time` crate's `Date::parse` with the `Iso8601`
parsing configuration on calendar-date inputs `YYYY-MM-DD`; the calendar
fine structure (month lengths, leap years) is simplified to
`1 ≤ month ≤ 12` and `1 ≤ day ≤ 31` — no claim depends on which concrete
strings are valid dates. -/
def iso8601_date_ok (s : String) : Bool :=
  match s.toList with
  | [y1, y2, y3, y4, sep1, m1, m2, sep2, d1, d2] =>
      y1.isDigit && y2.isDigit && y3.isDigit && y4.isDigit
      && sep1 == '-' && sep2 == '-'
      && m1.isDigit && m2.isDigit && d1.isDigit && d2.isDigit
      && (let m := (m1.toNat - 48) * 10 + (m2.toNat - 48)
          let d := (d1.toNat - 48) * 10 + (d2.toNat - 48)
          decide (1 ≤ m) && decide (m ≤ 12) && decide (1 ≤ d) && decide (d ≤ 31))
  | _ => false

/-- Whole seconds per single-letter unit of the external `duration_str`
crate's grammar; `none` for any other character. -/
def unit_secs : Char → Option Nat
  | 'd' => some 86400
  | 'h' => some 3600
  | 'm' => some 60
  | 's' => some 1
  | 'w' => some 604800
  | 'y' => some 31536000
  | _ => none

/-- Recursion for `parse_time`: remaining characters, value of the digit
group currently being read, whether that group has at least one digit, and
the whole seconds accumulated so far. -/
def parse_time_go : List Char → Nat → Bool → Nat → Option Nat
  | [], _, hasDigits, acc => if hasDigits then none else some acc
  | ch :: rest, cur, hasDigits, acc =>
      if ch.isDigit then parse_time_go rest (cur * 10 + (ch.toNat - 48)) true acc
      else
        match unit_secs ch, hasDigits with
        | some u, true => parse_time_go rest 0 false (acc + cur * u)
        | _, _ => none

/-- Models the external `duration_str::parse_time` on its single-letter-unit
grammar: one or more `<digits><unit>` groups (e.g. `1d`, `2h30m`), summed in
whole seconds.  Multi-character and sub-second units are outside the model;
no claim uses them. -/
def parse_time (s : String) : Option Nat :=
  if s.isEmpty then none
  else parse_time_go s.toList 0 false 0

/-- The per-option loop of `ValidatedOptions::validate_dates`: a string
value that fails `Date::parse` yields `NotDate(value)`, a non-string (or
unresolved) value yields `NotDate("not a string")`. -/
def check_dates : List CommandDataOption → Except InvalidOptionError Unit
  | [] => .ok ()
  | o :: rest =>
      match o.resolved with
      | some (.str s) =>
          if iso8601_date_ok s then check_dates rest
          else .error (.NotDate s)
      | _ => .error (.NotDate "not a string")

/-- `ValidatedOptions::validate_dates` of `src/bot/core/command/validate.rs`:
`Ok` at once when no option name is tagged as a date, otherwise filters the
invocation options to the tagged names and checks each in order. -/
def ValidatedOptions.validate_dates (v : ValidatedOptions)
    (options : List CommandDataOption) : Except InvalidOptionError Unit :=
  if v.dates.isEmpty then .ok ()
  else check_dates (options.filter (fun o => v.dates.contains o.name))

/-- The per-option loop of `ValidatedOptions::validate_durations`.  The
bound in the source is `Duration::days(one_month)` with
`one_month = 28 * 24 * 60 * 60`: a count of seconds (28 days' worth) passed
to a days constructor, hence `one_month * 86400` seconds here. -/
def check_durations : List CommandDataOption → Except InvalidOptionError Unit
  | [] => .ok ()
  | o :: rest =>
      match o.resolved with
      | some (.str s) =>
          match parse_time s with
          | none => .error (.NotDuration s)
          | some duration =>
              let one_month := 28 * 24 * 60 * 60
              if duration > one_month * 86400 then .error (.DurationTooLong s)
              else check_durations rest
      | _ => .error (.NotDuration "not a string")

/-- `ValidatedOptions::validate_durations` of
`src/bot/core/command/validate.rs`. -/
def ValidatedOptions.validate_durations (v : ValidatedOptions)
    (options : List CommandDataOption) : Except InvalidOptionError Unit :=
  if v.durations.isEmpty then .ok ()
  else check_durations (options.filter (fun o => v.durations.contains o.name))

/-- The per-option loop of `ValidatedOptions::validate_guild_members`: only
a user value carrying no partial-member payload fails; everything else is
passed over. -/
def check_guild_members : List CommandDataOption → Except InvalidOptionError Unit
  | [] => .ok ()
  | o :: rest =>
      match o.resolved with
      | some (.user id none) => .error (.NotGuildMember id)
      | _ => check_guild_members rest

/-- `ValidatedOptions::validate_guild_members` of
`src/bot/core/command/validate.rs`. -/
def ValidatedOptions.validate_guild_members (v : ValidatedOptions)
    (options : List CommandDataOption) : Except InvalidOptionError Unit :=
  if v.guild_members.isEmpty then .ok ()
  else check_guild_members (options.filter (fun o => v.guild_members.contains o.name))

/-- `ValidatedOptions::validate` of `src/bot/core/command/validate.rs`:
dates, then durations, then guild members, each behind `?`. -/
def ValidatedOptions.validate (v : ValidatedOptions)
    (options : List CommandDataOption) : Except InvalidOptionError Unit :=
  match v.validate_dates options with
  | .error e => .error e
  | .ok _ =>
      match v.validate_durations options with
      | .error e => .error e
      | .ok _ => v.validate_guild_members options

/-- The tagged-option predicate of the validation spec: the option's name
appears in one of the three tag lists. -/
def ValidatedOptions.tagged (v : ValidatedOptions) (o : CommandDataOption) : Bool :=
  v.dates.contains o.name || v.durations.contains o.name
    || v.guild_members.contains o.name

/-! ## Command metadata & name resolution (core tree: `src/core/command.rs`) -/

/-- `Metadata` of `src/core/command.rs`. -/
structure Metadata where
  name : String
  plugin : CorePlugin
  cooldown_secs : Nat
  aliases : Option (List String)
deriving DecidableEq

/-- `Metadata::all_names` of `src/core/command.rs`: the alias list with the
primary name pushed at the end, or just the primary name. -/
def Metadata.all_names (m : Metadata) : List String :=
  match m.aliases with
  | some aliases => aliases ++ [m.name]
  | none => [m.name]

/-- The `/ping` command's metadata.  The core tree's
`src/commands/plugins/information/ping.rs` is referenced by
`information_commands` but absent from the sources; the metadata is taken
from the bot tree's `src/bot/commands/plugins/information/ping.rs`:
name `ping`, plugin `Information`, cooldown `0`, alias `am-i-alive`. -/
def pingMetadata : Metadata := ⟨"ping", .Information, 0, some ["am-i-alive"]⟩

/-- `information_commands` of `src/commands/plugins/information/mod.rs`. -/
def information_commands : List Metadata := [pingMetadata]

/-- `Plugin::get_commands` of `src/core/plugin.rs`. -/
def CorePlugin.get_commands : CorePlugin → List Metadata
  | .Information => information_commands
  | .Moderation => []

/-- `Plugin::commands_by_plugins` of `src/core/plugin.rs`. -/
def CorePlugin.commands_by_plugins (plugins : List CorePlugin) : List Metadata :=
  plugins.flatMap CorePlugin.get_commands

/-- `all_commands` of `src/core/command.rs`: every plugin's commands, over
`enum_iterator::all` (declaration order). -/
def all_commands : List Metadata :=
  CorePlugin.commands_by_plugins [.Moderation, .Information]

/-- `command_by_name` of `src/core/command.rs`: the first command whose
`all_names` contains the requested name. -/
def command_by_name (name : String) : Option Metadata :=
  all_commands.find? (fun command => command.all_names.contains name)

/-! ## Moderation eligibility (`src/bot/core/moderation/mod.rs`) -/

/-- `ModerationAction` of `src/bot/core/moderation/mod.rs`. -/
inductive ModerationAction
  | Ban
  | Kick
  | Timeout
deriving DecidableEq

/-- `ModerationEligibility` of `src/bot/core/moderation/mod.rs`, with the
source's variant names: `BotUser` (target is a bot), `ServerOwner` (the
server-owner ineligibility), `AreThemselves` (target is the moderator),
`LowerHierarchy` (target is the greater in the hierarchy). -/
inductive ModerationEligibility
  | Eligible
  | BotUser
  | ServerOwner
  | AreThemselves
  | LowerHierarchy
deriving DecidableEq

/-- The cached guild data `assess` reads: the guild owner's id and
serenity's `Guild::greater_member_hierarchy`, which returns the id of the
greater of the two users, or `none` on a tie. -/
structure CachedGuild where
  owner_id : Nat
  greater_member_hierarchy : Nat → Nat → Option Nat

/-- `ModerationEligibility::assess` of `src/bot/core/moderation/mod.rs`.
`guild` is the cache lookup result (`none` models the cache miss that makes
the function bail); `to_user_bot` is `member.to_user(http).await?.bot`,
whose error propagates.  The branch order is the source's: self-check,
bot check, then `moderator != guild.owner_id → ServerOwner`, then the
hierarchy comparison `is_some_and(|greater| greater == member)`. -/
def ModerationEligibility.assess (moderator member : Nat)
    (to_user_bot : Nat → Except String Bool) (guild : Option CachedGuild) :
    Except String ModerationEligibility :=
  match guild with
  | none => .error "Failed to get guild data from the cache."
  | some g =>
      if moderator = member then .ok .AreThemselves
      else
        match to_user_bot member with
        | .error e => .error e
        | .ok isBot =>
            if isBot then .ok .BotUser
            else if moderator ≠ g.owner_id then .ok .ServerOwner
            else if g.greater_member_hierarchy moderator member = some member then
              .ok .LowerHierarchy
            else .ok .Eligible

/-! ## Moderation pipeline (`src/bot/core/moderation/moderate.rs`) -/

/-- The observable effects of one `moderate` invocation, in program
order. -/
inductive ModEvent
  | ackRequested
  | assessFailedEmbed
  | ineligibilityEmbed (e : ModerationEligibility)
  | dmAttempt
  | notificationWarningEmbed
  | notificationInfoEmbed
  | platformBan
  | platformKick
  | platformTimeout
  | actionFailureEmbed
  | actionSuccessEmbed
deriving DecidableEq

/-- Outcomes of the external calls one `moderate` invocation can make, in
the order the pipeline would reach them: the acknowledgement send
(`wait_a_moment`), the assessment, the assessment-failure embed send, the
ineligibility embed send, the DM to the target (`notify_moderated_member`),
the DM-outcome embed send (`send_notification_results`), the three
platform actions, and the action-outcome embed send
(`send_action_results`). -/
structure ModerateEnv where
  ack_send : Except String Unit
  assess_result : Except String ModerationEligibility
  assess_fail_send : Except String Unit
  ineligibility_send : Except String Unit
  dm_result : Except String Unit
  notification_send : Except String Unit
  ban_result : Except String Unit
  kick_result : Except String Unit
  timeout_result : Except String Unit
  action_send : Except String Unit

/-- The concrete action call of pipeline step 4: `ban`, `kick` or
`timeout`. -/
def ModerateEnv.action_result (env : ModerateEnv) :
    ModerationAction → Except String Unit
  | .Ban => env.ban_result
  | .Kick => env.kick_result
  | .Timeout => env.timeout_result

/-- The platform-call event of pipeline step 4. -/
def ModerationAction.platform_event : ModerationAction → ModEvent
  | .Ban => .platformBan
  | .Kick => .platformKick
  | .Timeout => .platformTimeout

/-- `send_notification_results` of `src/bot/core/moderation/moderate.rs`:
a warning embed when the DM failed, an info embed otherwise; the returned
value is the embed send's own outcome. -/
def send_notification_results (dm_result : Except String Unit)
    (send : Except String Unit) : Except String Unit × ModEvent :=
  match dm_result with
  | .error _ => (send, .notificationWarningEmbed)
  | .ok _ => (send, .notificationInfoEmbed)

/-- `send_action_results` of `src/bot/core/moderation/moderate.rs`: an
error embed when the action failed, a success embed otherwise; the
returned value is the embed send's own outcome. -/
def send_action_results (result : Except String Unit)
    (send : Except String Unit) : Except String Unit × ModEvent :=
  match result with
  | .error _ => (send, .actionFailureEmbed)
  | .ok _ => (send, .actionSuccessEmbed)

/-- `moderate` of `src/bot/core/moderation/moderate.rs`, with the external
world summarised by `env` and the emitted effects collected in program
order: acknowledge (`?`); assess — on error send the assessment-failed
embed (`?`) and bail; on an ineligible verdict send the ineligibility
embed and return; otherwise DM the target, report the DM outcome (`?`),
perform the concrete action, and report the action outcome. -/
def moderate (action : ModerationAction) (env : ModerateEnv) :
    Except String Unit × List ModEvent :=
  match env.ack_send with
  | .error e => (.error e, [.ackRequested])
  | .ok _ =>
      match env.assess_result with
      | .error why =>
          match env.assess_fail_send with
          | .error e => (.error e, [.ackRequested, .assessFailedEmbed])
          | .ok _ =>
              (.error ("Failed to assess moderation eligibility: `" ++ why ++ "`"),
                [.ackRequested, .assessFailedEmbed])
      | .ok eligibility =>
          if eligibility ≠ .Eligible then
            (env.ineligibility_send,
              [.ackRequested, .ineligibilityEmbed eligibility])
          else
            let notif := send_notification_results env.dm_result env.notification_send
            match notif.1 with
            | .error e => (.error e, [.ackRequested, .dmAttempt, notif.2])
            | .ok _ =>
                let report :=
                  send_action_results (env.action_result action) env.action_send
                (report.1,
                  [.ackRequested, .dmAttempt, notif.2,
                    action.platform_event, report.2])

/-- A concrete environment in which the assessment yields an
ineligibility. -/
def envIneligible : ModerateEnv :=
  ⟨.ok (), .ok .LowerHierarchy, .ok (), .ok (), .ok (), .ok (),
    .ok (), .ok (), .ok (), .ok ()⟩

/-- A concrete environment in which the target is eligible but the DM to
the target fails. -/
def envDmFails : ModerateEnv :=
  ⟨.ok (), .ok .Eligible, .ok (), .ok (), .error "closed DMs", .ok (),
    .ok (), .ok (), .ok (), .ok ()⟩

end Aegistrate

namespace Aegistrate

/-! ## Helper lemmas -/

theorem opt_map_some (f : α → β) (a : α) : Option.map f (some a) = some (f a) := rfl

theorem opt_map_none (f : α → β) : Option.map f (none : Option α) = none := rfl

/-- Every default plugin is in every successfully computed enabled set:
`PluginData::get_enabled_plugins` chains the default plugins onto the
stored ones. -/
theorem mem_enabled_of_default (stored : List String) (enabled : List Plugin)
    (h : PluginData.get_enabled_plugins stored = some enabled) (p : Plugin) :
    p ∈ enabled := by
  unfold PluginData.get_enabled_plugins at h
  cases hm : stored.mapM Plugin.from_name with
  | none => rw [hm, opt_map_none] at h; exact absurd h (by simp)
  | some ps =>
      rw [hm, opt_map_some] at h
      have hps : ps ++ Plugin.default_plugins = enabled := Option.some.inj h
      rw [← hps]
      have hp : p ∈ Plugin.default_plugins := by cases p <;> decide
      exact List.mem_append.mpr (Or.inr hp)

/-! ## Theorems: plugin registry -/

/-- C9: every `Plugin` variant is a default plugin (in both trees),
`non_default_plugins()` is empty, every successfully computed
enabled-plugin set contains every plugin, and `enable_plugin` fails with
the already-enabled error for every plugin in every stored state. -/
theorem plugin_all_default_enable_always_fails :
    (∀ p : Plugin, p ∈ Plugin.default_plugins)
    ∧ Plugin.non_default_plugins = []
    ∧ (∀ p : CorePlugin, p ∈ CorePlugin.default_plugins)
    ∧ (∀ stored enabled, PluginData.get_enabled_plugins stored = some enabled →
        ∀ p : Plugin, p ∈ enabled)
    ∧ (∀ stored p reg, (PluginData.get_enabled_plugins stored).isSome →
        enable_plugin stored p reg =
          some (.error ("Plugin " ++ p.to_name ++
            " is already enabled for the current guild!"))) := by
  refine ⟨?_, ?_, ?_, mem_enabled_of_default, ?_⟩
  · intro p; cases p <;> decide
  · decide
  · intro p; cases p <;> decide
  · intro stored p reg h
    unfold enable_plugin
    cases he : PluginData.get_enabled_plugins stored with
    | none => rw [he] at h; exact absurd h (by simp)
    | some enabled =>
        have hmem : p ∈ enabled := mem_enabled_of_default stored enabled he p
        rw [opt_map_some]
        have hc : enabled.contains p = true := List.elem_eq_true_of_mem hmem
        rw [if_pos hc]

/-- Witness for C9 at a concrete state: the stored list `["Moderation"]`,
the plugin `Plugins`, a successful registration outcome. -/
theorem plugin_all_default_enable_always_fails_witness :
    PluginData.get_enabled_plugins ["Moderation"] =
      some [.Moderation, .Information, .Moderation, .Plugins]
    ∧ (.Plugins : Plugin) ∈
        ([.Moderation, .Information, .Moderation, .Plugins] : List Plugin)
    ∧ enable_plugin ["Moderation"] .Plugins (.ok ()) =
        some (.error "Plugin Plugins is already enabled for the current guild!") := by
  refine ⟨by decide, ?_, ?_⟩
  · exact plugin_all_default_enable_always_fails.2.2.2.1 ["Moderation"]
      [.Moderation, .Information, .Moderation, .Plugins] (by decide) .Plugins
  · exact plugin_all_default_enable_always_fails.2.2.2.2 ["Moderation"] .Plugins
      (.ok ()) (by decide)

/-- C4 evaluation at the failing input: `Moderation` is a default plugin,
yet `disable_plugin` on it succeeds and removes the stored entry — it
never fails with a cannot-disable-default error. -/
theorem disable_default_plugin_succeeds :
    Plugin.is_default .Moderation = true
    ∧ disable_plugin ["Moderation"] .Moderation = some (.ok []) := by
  constructor
  · decide
  · rfl

/-! ## Theorems: cooldown tracker -/

/-- C5: the remaining cooldown is `0` with no last-use record; with a record
and elapsed time `e = now - lu` (well defined when `lu ≤ now`) it is
`c - e` when `e < c` and `0` when `e ≥ c`; and `cooled_down` is `true`
exactly when the remaining cooldown is `0`. -/
theorem remaining_cooldown_spec (now lu c : Nat) :
    get_remaining_cooldown now none c = some 0
    ∧ (lu ≤ now → now - lu < c →
        get_remaining_cooldown now (some lu) c = some (c - (now - lu)))
    ∧ (lu ≤ now → c ≤ now - lu →
        get_remaining_cooldown now (some lu) c = some 0)
    ∧ (∀ l : Option Nat,
        cooled_down now l c = some true ↔
          get_remaining_cooldown now l c = some 0) := by
  refine ⟨rfl, ?_, ?_, ?_⟩
  · intro hle hlt
    show (checked_sub now lu).map
        (fun between_period => if between_period ≥ c then 0 else c - between_period)
      = some (c - (now - lu))
    have h1 : checked_sub now lu = some (now - lu) := by
      unfold checked_sub; rw [if_pos hle]
    rw [h1, opt_map_some]
    rw [if_neg (by omega)]
  · intro hle hge
    show (checked_sub now lu).map
        (fun between_period => if between_period ≥ c then 0 else c - between_period)
      = some 0
    have h1 : checked_sub now lu = some (now - lu) := by
      unfold checked_sub; rw [if_pos hle]
    rw [h1, opt_map_some]
    rw [if_pos (by omega)]
  · intro l
    show (get_remaining_cooldown now l c).map (fun r => r == 0) = some true ↔
      get_remaining_cooldown now l c = some 0
    cases hg : get_remaining_cooldown now l c with
    | none => simp
    | some r =>
        rw [opt_map_some]
        constructor
        · intro h
          have hr : (r == 0) = true := Option.some.inj h
          have : r = 0 := by simpa using hr
          rw [this]
        · intro h
          have : r = 0 := Option.some.inj h
          rw [this]
          rfl

/-- Witness for C5 at concrete inputs: `now = 100`, `lu = 95`, `c = 10`
(elapsed `5 < 10`), and the ready check on the empty record. -/
theorem remaining_cooldown_spec_witness :
    (95 ≤ 100 ∧ 100 - 95 < 10
      ∧ get_remaining_cooldown 100 (some 95) 10 = some (10 - (100 - 95)))
    ∧ (cooled_down 100 none 10 = some true ↔
        get_remaining_cooldown 100 none 10 = some 0) := by
  refine ⟨⟨by decide, by decide, ?_⟩, ?_⟩
  · exact (remaining_cooldown_spec 100 95 10).2.1 (by decide) (by decide)
  · exact (remaining_cooldown_spec 100 95 10).2.2.2 none

/-- C10: the remaining-cooldown computation is total exactly under the
precondition `last_use ≤ now`: with the precondition it produces a value;
with a stored last-use strictly greater than the clock reading, the
unguarded `u64` subtraction underflows (a panic, modelled as `none`)
rather than yielding `0` or an error. -/
theorem remaining_cooldown_underflow (now lu c : Nat) :
    (lu ≤ now → (get_remaining_cooldown now (some lu) c).isSome)
    ∧ (now < lu → get_remaining_cooldown now (some lu) c = none) := by
  constructor
  · intro hle
    show ((checked_sub now lu).map
        (fun between_period => if between_period ≥ c then 0 else c - between_period)).isSome
      = true
    have h1 : checked_sub now lu = some (now - lu) := by
      unfold checked_sub; rw [if_pos hle]
    rw [h1, opt_map_some]
    rfl
  · intro hlt
    show (checked_sub now lu).map
        (fun between_period => if between_period ≥ c then 0 else c - between_period)
      = none
    have h1 : checked_sub now lu = none := by
      unfold checked_sub; rw [if_neg (by omega)]
    rw [h1, opt_map_none]

/-- Witness for C10: the computation panics at `now = 10`, `lu = 20`. -/
theorem remaining_cooldown_underflow_witness :
    10 < 20 ∧ get_remaining_cooldown 10 (some 20) 5 = none :=
  ⟨by decide, (remaining_cooldown_underflow 10 20 5).2 (by decide)⟩

/-! ## Theorems: option validation -/

/-- C3 evaluation at the failing input: `"29d"` parses to `29 * 86400`
seconds, yet `validate_durations` accepts it (the bound the source compares
against is `Duration::days(28 * 24 * 60 * 60)` ≈ 6627 years, not 28 days),
so the only input the claim says must fail is accepted; `"28d"` is accepted
as the claim says. -/
theorem duration_29d_passes :
    parse_time "29d" = some 2505600
    ∧ ValidatedOptions.validate_durations ⟨[], ["duration"], []⟩
        [⟨"duration", some (.str "29d")⟩] = .ok ()
    ∧ ValidatedOptions.validate_durations ⟨[], ["duration"], []⟩
        [⟨"duration", some (.str "28d")⟩] = .ok () :=
  ⟨rfl, rfl, rfl⟩

/-- Filtering by a weaker predicate first does not change a filter. -/
theorem filter_sub_filter (l : List CommandDataOption)
    (p q : CommandDataOption → Bool) (h : ∀ a, p a = true → q a = true) :
    (l.filter q).filter p = l.filter p := by
  induction l with
  | nil => rfl
  | cons a t ih =>
      cases hp : p a with
      | false =>
          cases hq : q a with
          | false => simp [List.filter_cons, hp, hq, ih]
          | true => simp [List.filter_cons, hp, hq, ih]
      | true =>
          have hqa := h a hp
          simp [List.filter_cons, hp, hqa, ih]

/-- Date validation only looks at date-tagged options. -/
theorem validate_dates_filter_tagged (v : ValidatedOptions)
    (options : List CommandDataOption) :
    v.validate_dates (options.filter v.tagged) = v.validate_dates options := by
  unfold ValidatedOptions.validate_dates
  have h : ∀ a, (fun o => v.dates.contains o.name) a = true → v.tagged a = true := by
    intro a ha
    simp only at ha
    have hmem : a.name ∈ v.dates := List.mem_of_elem_eq_true ha
    simp [ValidatedOptions.tagged, hmem]
  rw [filter_sub_filter options (fun o => v.dates.contains o.name) v.tagged h]

/-- Duration validation only looks at duration-tagged options. -/
theorem validate_durations_filter_tagged (v : ValidatedOptions)
    (options : List CommandDataOption) :
    v.validate_durations (options.filter v.tagged) = v.validate_durations options := by
  unfold ValidatedOptions.validate_durations
  have h : ∀ a, (fun o => v.durations.contains o.name) a = true → v.tagged a = true := by
    intro a ha
    simp only at ha
    have hmem : a.name ∈ v.durations := List.mem_of_elem_eq_true ha
    simp [ValidatedOptions.tagged, hmem]
  rw [filter_sub_filter options (fun o => v.durations.contains o.name) v.tagged h]

/-- Guild-member validation only looks at member-tagged options. -/
theorem validate_members_filter_tagged (v : ValidatedOptions)
    (options : List CommandDataOption) :
    v.validate_guild_members (options.filter v.tagged) =
      v.validate_guild_members options := by
  unfold ValidatedOptions.validate_guild_members
  have h : ∀ a, (fun o => v.guild_members.contains o.name) a = true →
      v.tagged a = true := by
    intro a ha
    simp only at ha
    have hmem : a.name ∈ v.guild_members := List.mem_of_elem_eq_true ha
    simp [ValidatedOptions.tagged, hmem]
  rw [filter_sub_filter options (fun o => v.guild_members.contains o.name) v.tagged h]

/-- C7: `validate` checks dates, then durations, then guild members, returns
the first failure in that order, ignores every option whose name is not
tagged (filtering the invocation to the tagged names changes nothing), and
succeeds exactly when all three passes succeed. -/
theorem validate_order_and_skip (v : ValidatedOptions)
    (options : List CommandDataOption) :
    (∀ e, v.validate_dates options = .error e → v.validate options = .error e)
    ∧ (∀ e, v.validate_dates options = .ok () →
        v.validate_durations options = .error e → v.validate options = .error e)
    ∧ (v.validate_dates options = .ok () → v.validate_durations options = .ok () →
        v.validate options = v.validate_guild_members options)
    ∧ (v.validate options = .ok () ↔
        v.validate_dates options = .ok () ∧ v.validate_durations options = .ok ()
          ∧ v.validate_guild_members options = .ok ())
    ∧ v.validate (options.filter v.tagged) = v.validate options := by
  refine ⟨?_, ?_, ?_, ?_, ?_⟩
  · intro e h
    unfold ValidatedOptions.validate
    rw [h]
  · intro e h1 h2
    unfold ValidatedOptions.validate
    rw [h1, h2]
  · intro h1 h2
    unfold ValidatedOptions.validate
    rw [h1, h2]
  · unfold ValidatedOptions.validate
    cases hd : v.validate_dates options with
    | error e => simp
    | ok u =>
        cases u
        cases hdu : v.validate_durations options with
        | error e => simp
        | ok u =>
            cases u
            simp
  · unfold ValidatedOptions.validate
    rw [validate_dates_filter_tagged, validate_durations_filter_tagged,
      validate_members_filter_tagged]

/-- Witness for C7 at a concrete spec and invocation: a bad date-tagged
option makes `validate_dates` fail and `validate` reports that very
error. -/
theorem validate_order_and_skip_witness :
    ValidatedOptions.validate_dates ⟨["when"], ["for"], ["who"]⟩
        [⟨"when", some (.str "zzz")⟩] = .error (.NotDate "zzz")
    ∧ ValidatedOptions.validate ⟨["when"], ["for"], ["who"]⟩
        [⟨"when", some (.str "zzz")⟩] = .error (.NotDate "zzz") :=
  ⟨rfl, (validate_order_and_skip ⟨["when"], ["for"], ["who"]⟩
    [⟨"when", some (.str "zzz")⟩]).1 (.NotDate "zzz") rfl⟩

/-! ## Theorems: command-name resolution -/

/-- `List.find?` only returns elements satisfying the predicate (explicit
form). -/
theorem find?_pred {α : Type} (p : α → Bool) (l : List α) (a : α)
    (h : l.find? p = some a) : p a = true :=
  List.find?_some h

/-- C6: `command_by_name` resolves a name to some command exactly when some
command's primary name or alias equals the name, and any resolved command
is one of the registered commands and matches the name. -/
theorem command_by_name_resolves (name : String) :
    ((command_by_name name).isSome ↔ ∃ c ∈ all_commands, name ∈ c.all_names)
    ∧ (∀ c, command_by_name name = some c →
        c ∈ all_commands ∧ name ∈ c.all_names) := by
  constructor
  · constructor
    · intro h
      obtain ⟨c, hc⟩ := Option.isSome_iff_exists.mp h
      have hc2 : all_commands.find?
          (fun command => command.all_names.contains name) = some c := hc
      have hp2 : c.all_names.contains name = true :=
        find?_pred (fun command => command.all_names.contains name) all_commands c hc2
      exact ⟨c, List.mem_of_find?_eq_some hc2, List.mem_of_elem_eq_true hp2⟩
    · rintro ⟨c, hc, hm⟩
      unfold command_by_name
      cases hf : all_commands.find? (fun command => command.all_names.contains name) with
      | some c2 => rfl
      | none =>
          exact absurd (List.elem_eq_true_of_mem hm)
            (List.find?_eq_none.mp hf c hc)
  · intro c h
    have h2 : all_commands.find?
        (fun command => command.all_names.contains name) = some c := h
    have hp2 : c.all_names.contains name = true :=
      find?_pred (fun command => command.all_names.contains name) all_commands c h2
    exact ⟨List.mem_of_find?_eq_some h2, List.mem_of_elem_eq_true hp2⟩

/-- Witness for C6: the alias `am-i-alive` resolves to the `/ping`
command. -/
theorem command_by_name_resolves_witness :
    command_by_name "am-i-alive" = some pingMetadata
    ∧ pingMetadata ∈ all_commands ∧ "am-i-alive" ∈ pingMetadata.all_names :=
  ⟨rfl, (command_by_name_resolves "am-i-alive").2 pingMetadata rfl⟩

/-! ## Theorems: moderation eligibility and pipeline -/

/-- C1 evaluation at the failing input: moderator `1` is not the guild
owner (`3`) and is strictly above target `2` in the hierarchy
(`greater_member_hierarchy` returns the moderator); target `2` is no bot,
not the moderator, not the owner.  The claim expects `Eligible` here (and
`LowerHierarchy`, i.e. target-outranks-actor, exactly when the target is
the greater), but `assess` returns the `ServerOwner` ineligibility: its
third branch fires for every non-owner moderator, so the hierarchy
comparison is never reached. -/
theorem assess_nonowner_actor_misreported :
    ModerationEligibility.assess 1 2 (fun _ => .ok false)
        (some ⟨3, fun _ _ => some 1⟩) = .ok .ServerOwner
    ∧ ModerationEligibility.ServerOwner ≠ .Eligible
    ∧ ModerationEligibility.ServerOwner ≠ .LowerHierarchy :=
  ⟨rfl, by decide, by decide⟩

/-- C2: when the assessment succeeds with any verdict other than
`Eligible`, `moderate` sends the ineligibility embed for that very verdict
and returns: the target is never DMed and no ban, kick or timeout platform
call is made. -/
theorem moderate_ineligible_aborts (action : ModerationAction)
    (env : ModerateEnv) (elig : ModerationEligibility)
    (hack : env.ack_send = .ok ())
    (hassess : env.assess_result = .ok elig)
    (hne : elig ≠ .Eligible) :
    (moderate action env).2 = [.ackRequested, .ineligibilityEmbed elig]
    ∧ (moderate action env).1 = env.ineligibility_send
    ∧ ModEvent.dmAttempt ∉ (moderate action env).2
    ∧ ModEvent.platformBan ∉ (moderate action env).2
    ∧ ModEvent.platformKick ∉ (moderate action env).2
    ∧ ModEvent.platformTimeout ∉ (moderate action env).2 := by
  have htrace : moderate action env =
      (env.ineligibility_send, [.ackRequested, .ineligibilityEmbed elig]) := by
    unfold moderate
    rw [hack, hassess]
    simp [hne]
  rw [htrace]
  refine ⟨rfl, rfl, ?_, ?_, ?_, ?_⟩ <;> simp

/-- Witness for C2 at a concrete environment: a `LowerHierarchy` verdict on
a `timeout` invocation stops after the ineligibility embed. -/
theorem moderate_ineligible_aborts_witness :
    envIneligible.ack_send = .ok ()
    ∧ envIneligible.assess_result = .ok .LowerHierarchy
    ∧ ModerationEligibility.LowerHierarchy ≠ .Eligible
    ∧ (moderate .Timeout envIneligible).2 =
        [.ackRequested, .ineligibilityEmbed .LowerHierarchy] :=
  ⟨rfl, rfl, by decide,
    (moderate_ineligible_aborts .Timeout envIneligible .LowerHierarchy rfl rfl
      (by decide)).1⟩

/-- C8: on an `Eligible` verdict, a failing DM does not abort the pipeline:
the failure is reported as a warning embed, the concrete action is still
attempted afterwards (the platform call for `action` appears after the
warning in the trace), and its outcome is reported (a success or failure
embed depending on the action's result). -/
theorem moderate_dm_failure_nonfatal (action : ModerationAction)
    (env : ModerateEnv) (msg : String)
    (hack : env.ack_send = .ok ())
    (hassess : env.assess_result = .ok .Eligible)
    (hdm : env.dm_result = .error msg)
    (hns : env.notification_send = .ok ()) :
    (moderate action env).2 =
      [.ackRequested, .dmAttempt, .notificationWarningEmbed,
        action.platform_event,
        (send_action_results (env.action_result action) env.action_send).2]
    ∧ (moderate action env).1 = env.action_send
    ∧ ModEvent.notificationWarningEmbed ∈ (moderate action env).2
    ∧ action.platform_event ∈ (moderate action env).2
    ∧ (∀ e, env.action_result action = .error e →
        (send_action_results (env.action_result action) env.action_send).2 =
          .actionFailureEmbed)
    ∧ (env.action_result action = .ok () →
        (send_action_results (env.action_result action) env.action_send).2 =
          .actionSuccessEmbed) := by
  have htrace : moderate action env =
      (env.action_send,
        [.ackRequested, .dmAttempt, .notificationWarningEmbed,
          action.platform_event,
          (send_action_results (env.action_result action) env.action_send).2]) := by
    unfold moderate
    rw [hack, hassess]
    simp [send_notification_results, hdm, hns, send_action_results]
    cases env.action_result action <;> simp
  rw [htrace]
  refine ⟨rfl, rfl, by simp, by simp, ?_, ?_⟩
  · intro e h
    rw [h]
    rfl
  · intro h
    rw [h]
    rfl

/-- Witness for C8 at a concrete environment: a `ban` invocation whose DM
fails with "closed DMs" still issues the ban and reports success. -/
theorem moderate_dm_failure_nonfatal_witness :
    envDmFails.ack_send = .ok ()
    ∧ envDmFails.assess_result = .ok .Eligible
    ∧ envDmFails.dm_result = .error "closed DMs"
    ∧ envDmFails.notification_send = .ok ()
    ∧ (moderate .Ban envDmFails).2 =
        [.ackRequested, .dmAttempt, .notificationWarningEmbed, .platformBan,
          .actionSuccessEmbed] := by
  refine ⟨rfl, rfl, rfl, rfl, ?_⟩
  exact (moderate_dm_failure_nonfatal .Ban envDmFails "closed DMs"
    rfl rfl rfl rfl).1

end Aegistrate
